import Mathlib

/-!
# Verification of the Q-Learning-Bot grid world (environment.py, robot.py, main.py)

Shallow embedding of the repository's two components:

* `Environment` (environment.py): a 5x5 board with per-cell rewards, a
  legality mask over (state, action) pairs, three terminal states, and a
  mutable robot position.  Actions are `Fin 4` with the source's encoding
  0 = up, 1 = left, 2 = down, 3 = right.  States are integer pairs
  `ℤ × ℤ` because the Python code stores the position as a plain list of
  ints, with no bounds check of its own.
* `Robot` (robot.py): tabular Q-learning state (Q-table, epsilon schedule,
  iteration counter, episode bookkeeping).

Randomness is factored out: the stochastic action-perturbation kernel of
`Environment.receive_action` is embedded as the categorical weight table
`randomized_action_prob`, and the deterministic remainder of
`receive_action` takes the realized (post-perturbation) action as an
argument.  Likewise the robot's epsilon-greedy draw and the uniform
explore draw are embedded as explicit inputs / weight tables.

Python floats are modelled as `ℚ`; the board rewards are `ℤ` (numpy int
array in the source).  The float sentinel `-float('inf')` used by
`Robot.max_reachable_q` is modelled as `none : Option ℚ` (the fold's
initial accumulator), with `qlt` giving the float comparison semantics
against that sentinel.
-/

/-- Actions, encoded as in the source: 0 = up, 1 = left, 2 = down, 3 = right. -/
abbrev Act : Type := Fin 4

/-- Board coordinates `[row, col]`; the Python code uses a 2-element int list. -/
abbrev GState : Type := ℤ × ℤ

/-- The canonical action list `self.actions = [0, 1, 2, 3]` of robot.py. -/
def actionList : List Act := [0, 1, 2, 3]

/-- The environment of environment.py: board rewards, legality mask,
terminal states, and the robot's current position. -/
structure Environment where
  board_rewards : GState → ℤ
  allowed_actions : GState → Act → Bool
  final_states : List GState
  robot_state : GState

/-- Per-action offset dictionary of `receive_action` (environment.py lines
83-88): up is row-1, left is col-1, down is row+1, right is col+1. -/
def next_state (s : GState) (a : Act) : GState :=
  if a = 0 then (s.1 - 1, s.2)
  else if a = 1 then (s.1, s.2 - 1)
  else if a = 2 then (s.1 + 1, s.2)
  else (s.1, s.2 + 1)

/-- The categorical weights of the stochastic action-perturbation kernel of
`receive_action` (environment.py lines 74-79): `randomized_action_prob i j`
is the probability that intending action `i` realizes action `j`.  The
source's dict literal does not read the robot's state, so neither does this
table. -/
def randomized_action_prob (intended realized : Act) : ℚ :=
  match intended.val, realized.val with
  | 0, 0 => 8/10
  | 0, 1 => 1/10
  | 0, 2 => 0
  | 0, 3 => 1/10
  | 1, 0 => 1/10
  | 1, 1 => 8/10
  | 1, 2 => 1/10
  | 1, 3 => 0
  | 2, 0 => 0
  | 2, 1 => 1/10
  | 2, 2 => 8/10
  | 2, 3 => 1/10
  | 3, 0 => 1/10
  | 3, 1 => 0
  | 3, 2 => 1/10
  | 3, 3 => 8/10
  | _, _ => 0

/-- The action opposite to a given action (up/down, left/right): index `a + 2`
modulo 4 under the source's encoding. -/
def oppositeAction (a : Act) : Act := a + 2

/-- Deterministic remainder of `Environment.receive_action` (environment.py
lines 81-96), taking the realized (post-kernel) action: if the mask allows it,
commit the offset state, return the board reward at the new cell minus 1, and
report whether the new cell is terminal; otherwise leave the state unchanged
and return reward -1 with no terminal check. -/
def Environment.receive_action (e : Environment) (randomized_action : Act) :
    Environment × ℤ × Bool :=
  let state := e.robot_state
  if e.allowed_actions state randomized_action then
    let ns := next_state state randomized_action
    ({ e with robot_state := ns },
     e.board_rewards ns - 1,
     decide (ns ∈ e.final_states))
  else
    (e, -1, false)

/-- `Environment.reset` (environment.py lines 52-55): put the robot back at
the start cell `[0, 0]`. -/
def Environment.reset (e : Environment) : Environment :=
  { e with robot_state := (0, 0) }

/-- The board rewards built in `Environment.__init__` (environment.py lines
20-24): zero everywhere except -100 at (1,1), 50 at (1,2), 100 at (1,3). -/
def initBoardRewards (s : GState) : ℤ :=
  if s = (1, 1) then -100
  else if s = (1, 2) then 50
  else if s = (1, 3) then 100
  else 0

/-- The legality mask built in `Environment.__init__` (environment.py lines
28-42), written as one boolean formula over the serial numpy assignments:
an action is allowed unless one of the assignments zeroed its entry.  The
numpy array only has indices 0..4; this function extends the same formula to
all of `ℤ × ℤ`, which is immaterial because every theorem below queries it
at in-bounds states only. -/
def initAllowedActions (s : GState) (a : Act) : Bool :=
  !((a = 1 && s.2 = 0) ||
    (a = 3 && s.2 = 4) ||
    (a = 0 && s.1 = 0) ||
    (a = 2 && s.1 = 4) ||
    (a = 3 && 1 ≤ s.1 && s.1 ≤ 3) ||
    (a = 1 && 1 ≤ s.1 && s.1 ≤ 3) ||
    (a = 2 && (s = (0, 1) || s = (1, 2) || s = (0, 3))) ||
    (a = 0 && (s = (1, 1) || s = (2, 2) || s = (1, 3))))

/-- The environment as constructed by `Environment.__init__`: the terminal
states are (1,1), (1,2), (1,3) and the robot starts at (0,0). -/
def initEnvironment : Environment :=
  { board_rewards := initBoardRewards
    allowed_actions := initAllowedActions
    final_states := [(1, 1), (1, 2), (1, 3)]
    robot_state := (0, 0) }

/-- A state is inside the 5x5 board. -/
def inBounds (s : GState) : Prop :=
  0 ≤ s.1 ∧ s.1 < 5 ∧ 0 ≤ s.2 ∧ s.2 < 5

instance (s : GState) : Decidable (inBounds s) := by
  unfold inBounds; infer_instance

/-- Run the environment through a list of realized actions, threading the
state as the while-loop of `run_bot` does on the environment side. -/
def runEnvironment (e : Environment) (acts : List Act) : Environment :=
  acts.foldl (fun cur a => (cur.receive_action a).1) e

/-- The robot of robot.py: hyperparameters, episode bookkeeping, and the
Q-table.  The `plotting` flag is omitted (display only). -/
structure Robot where
  alpha : ℚ
  epsilon : ℚ
  gamma : ℚ
  epsilon_decrease : ℚ
  iteration : ℕ
  Q_table : GState → Act → ℚ
  game_over : Bool
  total_reward : ℤ

/-- `Robot.__init__` with its default hyperparameters (robot.py lines 15-26):
the Q-table starts uniformly at -1.0. -/
def initRobot : Robot :=
  { alpha := 1/10
    epsilon := 1
    gamma := 98/100
    epsilon_decrease := 1/2000
    iteration := 0
    Q_table := fun _ _ => -1
    game_over := false
    total_reward := 0 }

/-- `Robot.restart` (robot.py lines 28-34): bump the iteration counter,
zero the episode reward, clear the done flag, decay epsilon with a floor
at 0. -/
def Robot.restart (r : Robot) : Robot :=
  { r with
    iteration := r.iteration + 1
    total_reward := 0
    game_over := false
    epsilon := max (r.epsilon - r.epsilon_decrease) 0 }

/-- Float comparison `q > acc` where the accumulator `none` stands for the
sentinel `-float('inf')`, which every float exceeds. -/
def qlt (acc : Option ℚ) (q : ℚ) : Bool :=
  match acc with
  | none => true
  | some m => decide (m < q)

/-- `Robot.max_reachable_q` (robot.py lines 36-53): fold over the canonical
action list, starting from the `-float('inf')` sentinel (`none` here), taking
each Q-value that is allowed by the mask and strictly larger than the
accumulator.  The result is `none` exactly when no action is allowed, in
which case the Python function returns the float `-inf` sentinel itself. -/
def Robot.max_reachable_q (r : Robot) (st : GState)
    (allowed_actions : GState → Act → Bool) : Option ℚ :=
  actionList.foldl
    (fun acc a =>
      if allowed_actions st a then
        if qlt acc (r.Q_table st a) then some (r.Q_table st a) else acc
      else acc)
    none

/-- `np.argmax` over the 4-vector `Q_table[state, :]` (robot.py line 67):
index of the maximum value, taking the first index in scan order 0,1,2,3 on
ties. -/
def argmax4 (f : Act → ℚ) : Act :=
  List.foldl (fun best a => if f a > f best then a else best) 0 [1, 2, 3]

/-- The epsilon-greedy choice of `Robot.update_bot` (robot.py lines 65-69)
given the two random draws: the Bernoulli exploit decision `take_best` and
the uniform draw `random_action` used in the explore branch.  The exploit
branch scans all 4 Q-values, unfiltered by any legality mask; so does the
explore draw. -/
def Robot.choose_action (r : Robot) (st : GState) (take_best : Bool)
    (random_action : Act) : Act :=
  if take_best then argmax4 (r.Q_table st) else random_action

/-- The probability that `np.random.random_integers(low, high)` returns `k`:
uniform over the inclusive range. -/
def random_integers_prob (low high k : ℤ) : ℚ :=
  if low ≤ k ∧ k ≤ high then 1 / (high - low + 1) else 0

/-- The explore branch's draw `np.random.random_integers(0, 3)` (robot.py
line 69): probability of each action.  The draw takes no legality mask. -/
def explore_action_prob (a : Act) : ℚ :=
  random_integers_prob 0 3 (a : ℤ)

/-- The Bernoulli exploit/explore draw
`np.random.choice([1, 0], p=[1-epsilon, epsilon])` (robot.py line 65):
probability of taking the exploit (`true`) or explore (`false`) branch. -/
def take_best_prob (epsilon : ℚ) (take_best : Bool) : ℚ :=
  if take_best then 1 - epsilon else epsilon

/-- `Robot.update_bot` (robot.py lines 55-84) after the action has been
chosen, with the kernel's realized action supplied explicitly: submit the
realized action to the environment, accumulate the reward, store the done
flag, and perform the one-step Q-learning backup on the (pre-call state,
chosen action) entry.  Returns `none` when `max_reachable_q` yields the
`-inf` sentinel, which the rational embedding cannot carry into the
arithmetic (the float code would write `-inf` into the Q-table there). -/
def Robot.update_bot (r : Robot) (e : Environment) (action realized : Act) :
    Option (Robot × Environment) :=
  let state := e.robot_state
  let step := e.receive_action realized
  let e' := step.1
  let new_reward := step.2.1
  let game_over := step.2.2
  match r.max_reachable_q e'.robot_state e.allowed_actions with
  | none => none
  | some v =>
      some
        ({ r with
            game_over := game_over
            total_reward := r.total_reward + new_reward
            Q_table := fun s2 a2 =>
              if s2 = state ∧ a2 = action then
                r.Q_table state action +
                  r.alpha *
                    ((new_reward : ℚ) + r.gamma * v - r.Q_table state action)
              else r.Q_table s2 a2 },
         e')

/-- The part of `Robot.run_bot` (robot.py lines 107-121) that runs before the
first call to `update_bot`: it sets the plotting flag and calls
`self.restart()`.  It never touches the environment — `run_bot` contains no
call to `Environment.reset`. -/
def Robot.run_bot_prelude (r : Robot) (e : Environment) : Robot × Environment :=
  (r.restart, e)

/-- One episode boundary as driven by `main` (main.py lines 19-21):
`env.reset()` followed by `rob.run_bot(env, ...)`, of which we keep the
pre-loop part. -/
def main_episode_prelude (r : Robot) (e : Environment) : Robot × Environment :=
  r.run_bot_prelude e.reset

/-- C2: for every intended action, the realized-action distribution of the
perturbation kernel puts weight 0.8 on the intended action, 0 on the opposite
action, 0.1 on each of the two remaining (orthogonal) actions, and the four
weights sum to 1.  The kernel (the source's dict of `np.random.choice` calls)
does not read the robot's state, so the distribution is the same at every
state. -/
theorem claim_C2_kernel_distribution (i j : Act) :
    randomized_action_prob i j =
      (if j = i then 8/10 else if j = oppositeAction i then 0 else (1/10 : ℚ)) ∧
    (Finset.univ.sum fun k : Act => randomized_action_prob i k) = 1 := by
  constructor
  · fin_cases i <;> fin_cases j <;> rfl
  · fin_cases i <;> (rw [Fin.sum_univ_four]; norm_num [randomized_action_prob])

/-- C3: when the mask allows the realized action from the current state,
`receive_action` commits the fixed per-action offset as the new state (the
other environment fields are untouched), returns the board reward at the new
cell minus the base step cost 1, and reports done exactly when the new cell is
a final state; the offsets are up = row-1, left = col-1, down = row+1,
right = col+1. -/
theorem claim_C3_legal_step (e : Environment) (a : Act)
    (h : e.allowed_actions e.robot_state a = true) :
    (e.receive_action a).1.robot_state = next_state e.robot_state a ∧
    (e.receive_action a).1.board_rewards = e.board_rewards ∧
    (e.receive_action a).1.allowed_actions = e.allowed_actions ∧
    (e.receive_action a).1.final_states = e.final_states ∧
    (e.receive_action a).2.1 = e.board_rewards (next_state e.robot_state a) - 1 ∧
    ((e.receive_action a).2.2 = true ↔ next_state e.robot_state a ∈ e.final_states) ∧
    (∀ s : GState,
      next_state s 0 = (s.1 - 1, s.2) ∧ next_state s 1 = (s.1, s.2 - 1) ∧
      next_state s 2 = (s.1 + 1, s.2) ∧ next_state s 3 = (s.1, s.2 + 1)) := by
  refine ⟨?_, ?_, ?_, ?_, ?_, ?_, ?_⟩ <;>
    simp [Environment.receive_action, h, next_state]

/-- C3 witness: from the start cell (0, 0) the realized action right is legal;
the step commits (0, 1), pays reward 0 - 1, and does not terminate. -/
theorem claim_C3_legal_step_witness :
    initEnvironment.allowed_actions initEnvironment.robot_state 3 = true ∧
    (initEnvironment.receive_action 3).1.robot_state = next_state initEnvironment.robot_state 3 ∧
    (initEnvironment.receive_action 3).2.1 =
      initEnvironment.board_rewards (next_state initEnvironment.robot_state 3) - 1 ∧
    ((initEnvironment.receive_action 3).2.2 = true ↔
      next_state initEnvironment.robot_state 3 ∈ initEnvironment.final_states) := by
  have h : initEnvironment.allowed_actions initEnvironment.robot_state 3 = true := by decide
  have hmain := claim_C3_legal_step initEnvironment 3 h
  exact ⟨h, hmain.1, hmain.2.2.2.2.1, hmain.2.2.2.2.2.1⟩

/-- C4: when the mask forbids the realized action from the current state,
`receive_action` returns the environment unchanged, reward exactly -1 and
done = false. -/
theorem claim_C4_illegal_step (e : Environment) (a : Act)
    (h : e.allowed_actions e.robot_state a = false) :
    e.receive_action a = (e, -1, false) := by
  simp [Environment.receive_action, h]

/-- C4 witness: sitting on the terminal cell (1, 3), the realized action up is
illegal; the step is a no-op with reward -1 and done = false even though the
current cell is in the terminal set. -/
theorem claim_C4_illegal_step_witness :
    ({ initEnvironment with robot_state := (1, 3) } : Environment).allowed_actions (1, 3) 0 = false ∧
    ((1, 3) : GState) ∈ ({ initEnvironment with robot_state := (1, 3) } : Environment).final_states ∧
    ({ initEnvironment with robot_state := (1, 3) } : Environment).receive_action 0 =
      ({ initEnvironment with robot_state := (1, 3) }, -1, false) := by
  refine ⟨by decide, by decide, ?_⟩
  exact claim_C4_illegal_step { initEnvironment with robot_state := (1, 3) } 0 (by decide)

/-- C8: `restart` increments the iteration counter by 1, zeroes the episode
reward, clears the done flag, and sets epsilon to max(epsilon -
epsilon_decrease, 0); hence epsilon is never negative after a restart, and
along any sequence of restarts it is monotonically non-increasing provided the
decay step is nonnegative and the starting epsilon is nonnegative. -/
theorem claim_C8_restart (r : Robot) :
    r.restart.iteration = r.iteration + 1 ∧
    r.restart.total_reward = 0 ∧
    r.restart.game_over = false ∧
    r.restart.epsilon = max (r.epsilon - r.epsilon_decrease) 0 ∧
    0 ≤ r.restart.epsilon ∧
    (0 ≤ r.epsilon_decrease → 0 ≤ r.epsilon →
      ∀ n : ℕ, 0 ≤ (Robot.restart^[n] r).epsilon ∧
        (Robot.restart^[n + 1] r).epsilon ≤ (Robot.restart^[n] r).epsilon) := by
  refine ⟨rfl, rfl, rfl, rfl, le_max_right _ _, ?_⟩
  intro hd he n
  have hdec : ∀ m : ℕ, (Robot.restart^[m] r).epsilon_decrease = r.epsilon_decrease := by
    intro m
    induction m with
    | zero => rfl
    | succ k ih => rw [Function.iterate_succ_apply']; simpa [Robot.restart] using ih
  have hnn : ∀ m : ℕ, 0 ≤ (Robot.restart^[m] r).epsilon := by
    intro m
    cases m with
    | zero => exact he
    | succ k =>
        rw [Function.iterate_succ_apply']
        exact le_max_right _ _
  refine ⟨hnn n, ?_⟩
  rw [Function.iterate_succ_apply']
  have h1 : (Robot.restart^[n] r).epsilon - (Robot.restart^[n] r).epsilon_decrease ≤
      (Robot.restart^[n] r).epsilon := by
    rw [hdec n]; linarith
  exact max_le h1 (hnn n)

/-- C8 witness: with the default robot (epsilon 1, decay 1/2000) the first
restart leaves epsilon nonnegative and not above its previous value. -/
theorem claim_C8_restart_witness :
    0 ≤ (Robot.restart^[0] initRobot).epsilon ∧
    (Robot.restart^[1] initRobot).epsilon ≤ (Robot.restart^[0] initRobot).epsilon := by
  exact (claim_C8_restart initRobot).2.2.2.2.2 (by norm_num [initRobot])
    (by norm_num [initRobot]) 0

/-- C10 counterexample: `run_bot` never resets the environment.  Running the
pre-loop part of `run_bot` on an environment whose previous episode ended at
the terminal cell (1, 3) leaves the agent at (1, 3), not at the start cell
(0, 0): the Learner does not ask the World Model to reset. -/
theorem claim_C10_counterexample :
    (initRobot.run_bot_prelude { initEnvironment with robot_state := (1, 3) }).2.robot_state
      = (1, 3) ∧ ((1, 3) : GState) ≠ (0, 0) := by
  exact ⟨rfl, by decide⟩

/-- C10 amended: `run_bot` itself leaves the World Model untouched; it is the
driver `main` that calls `env.reset()` before each `run_bot`, and under that
loop the agent state is the start cell (0, 0) when the first step of the
episode executes. -/
theorem claim_C10_amended_reset (r : Robot) (e : Environment) :
    (r.run_bot_prelude e).2 = e ∧
    e.reset.robot_state = (0, 0) ∧
    (main_episode_prelude r e).2.robot_state = (0, 0) ∧
    (main_episode_prelude r e).1 = r.restart := by
  exact ⟨rfl, rfl, rfl, rfl⟩

/-- C1: on every step (terminating or not), `update_bot` performs exactly one
Bellman backup, on the (pre-call state, chosen action) entry: when the
bootstrap state has a legal action (so `max_reachable_q` returns a finite
value `v` -- the max Q-value over the mask-legal actions of the new state),
the post-update value is old + alpha * (reward + gamma * v - old), every other
Q-table entry is unchanged, the done flag is stored, and the reward is
accumulated. -/
theorem claim_C1_bellman_backup (r : Robot) (e : Environment)
    (action realized : Act) (v : ℚ)
    (hv : r.max_reachable_q (e.receive_action realized).1.robot_state
      e.allowed_actions = some v) :
    ∃ r', r.update_bot e action realized = some (r', (e.receive_action realized).1) ∧
      r'.Q_table e.robot_state action =
        r.Q_table e.robot_state action +
          r.alpha * (((e.receive_action realized).2.1 : ℚ) + r.gamma * v -
            r.Q_table e.robot_state action) ∧
      (∀ (s2 : GState) (a2 : Act), ¬(s2 = e.robot_state ∧ a2 = action) →
        r'.Q_table s2 a2 = r.Q_table s2 a2) ∧
      r'.game_over = (e.receive_action realized).2.2 ∧
      r'.total_reward = r.total_reward + (e.receive_action realized).2.1 := by
  refine ⟨{ r with
      game_over := (e.receive_action realized).2.2
      total_reward := r.total_reward + (e.receive_action realized).2.1
      Q_table := fun s2 a2 =>
        if s2 = e.robot_state ∧ a2 = action then
          r.Q_table e.robot_state action +
            r.alpha * (((e.receive_action realized).2.1 : ℚ) + r.gamma * v -
              r.Q_table e.robot_state action)
        else r.Q_table s2 a2 }, ?_, ?_, ?_, rfl, rfl⟩
  · simp only [Robot.update_bot]
    rw [hv]
  · simp
  · intro s2 a2 hne
    simp [hne]

/-- C1 witness: a terminating step.  From (2, 1), action up (legal) enters the
terminal cell (1, 1); done is true, yet the backup still runs: the new Q-value
at ((2, 1), up) is -1 + 0.1 * (-101 + 0.98 * (-1) - (-1)), and the entry
((0, 0), right) is untouched. -/
theorem claim_C1_bellman_backup_witness :
    ∃ r', initRobot.update_bot { initEnvironment with robot_state := (2, 1) } 0 0 =
        some (r', (({ initEnvironment with robot_state := (2, 1) } :
          Environment).receive_action 0).1) ∧
      r'.Q_table (2, 1) 0 =
        initRobot.Q_table (2, 1) 0 +
          initRobot.alpha *
            (((({ initEnvironment with robot_state := (2, 1) } :
              Environment).receive_action 0).2.1 : ℚ) +
              initRobot.gamma * (-1) - initRobot.Q_table (2, 1) 0) ∧
      (∀ (s2 : GState) (a2 : Act), ¬(s2 = (2, 1) ∧ a2 = 0) →
        r'.Q_table s2 a2 = initRobot.Q_table s2 a2) ∧
      r'.game_over = (({ initEnvironment with robot_state := (2, 1) } :
        Environment).receive_action 0).2.2 ∧
      r'.total_reward = initRobot.total_reward +
        (({ initEnvironment with robot_state := (2, 1) } :
          Environment).receive_action 0).2.1 :=
  claim_C1_bellman_backup initRobot { initEnvironment with robot_state := (2, 1) }
    0 0 (-1) (by rfl)

/-- C7: the explore branch is taken with probability epsilon per step, and it
draws uniformly from all 4 actions (`random_integers(0, 3)` gives each action
probability 1/4, summing to 1), passes the drawn action through unfiltered by
any legality mask, and an action that the constructed mask marks illegal has
positive probability of being drawn. -/
theorem claim_C7_explore_uniform :
    (∀ eps : ℚ, take_best_prob eps false = eps ∧
      take_best_prob eps true + take_best_prob eps false = 1) ∧
    (∀ a : Act, explore_action_prob a = 1/4) ∧
    (Finset.univ.sum fun a : Act => explore_action_prob a) = 1 ∧
    (∀ (r : Robot) (st : GState) (rand : Act), r.choose_action st false rand = rand) ∧
    (∃ s : GState, ∃ a : Act, initAllowedActions s a = false ∧ 0 < explore_action_prob a) := by
  have h14 : ∀ a : Act, explore_action_prob a = 1/4 := by
    intro a
    fin_cases a <;> norm_num [explore_action_prob, random_integers_prob]
  refine ⟨fun eps => ⟨rfl, by simp [take_best_prob]⟩, h14, ?_, fun r st rand => rfl,
    ⟨(1, 3), 0, by decide, by norm_num [explore_action_prob, random_integers_prob]⟩⟩
  rw [Fin.sum_univ_four, h14, h14, h14, h14]
  norm_num

/-- The fold of `max_reachable_q` yields the sentinel iff it started from the
sentinel and no scanned action is allowed. -/
theorem max_fold_none_iff (Q : GState → Act → ℚ) (st : GState)
    (mask : GState → Act → Bool) (l : List Act) (acc : Option ℚ) :
    l.foldl (fun acc a =>
        if mask st a then
          (if qlt acc (Q st a) then some (Q st a) else acc)
        else acc) acc = none ↔
      acc = none ∧ ∀ a ∈ l, mask st a = false := by
  induction l generalizing acc with
  | nil => simp
  | cons hd tl ih =>
      simp only [List.foldl_cons, List.mem_cons]
      rw [ih]
      by_cases hm : mask st hd
      · simp only [hm, if_true]
        constructor
        · rintro ⟨hacc, -⟩
          by_cases hq : qlt acc (Q st hd)
          · rw [if_pos hq] at hacc
            exact absurd hacc (Option.some_ne_none _)
          · rw [if_neg hq] at hacc
            subst hacc
            simp [qlt] at hq
        · rintro ⟨-, hall⟩
          exact absurd hm (by simp [hall hd (Or.inl rfl)])
      · have hmf : mask st hd = false := Bool.eq_false_iff.mpr hm
        simp only [hmf, Bool.false_eq_true, if_false]
        constructor
        · rintro ⟨hacc, hall⟩
          exact ⟨hacc, fun a ha => ha.elim (fun h => by rw [h]; exact hmf) (hall a)⟩
        · rintro ⟨hacc, hall⟩
          exact ⟨hacc, fun a ha => hall a (Or.inr ha)⟩

/-- `max_reachable_q` returns the sentinel exactly when the mask allows no
action at the given state. -/
theorem max_reachable_q_eq_none_iff (r : Robot) (st : GState)
    (mask : GState → Act → Bool) :
    r.max_reachable_q st mask = none ↔ ∀ a : Act, mask st a = false := by
  unfold Robot.max_reachable_q
  rw [max_fold_none_iff]
  constructor
  · rintro ⟨-, hall⟩ a
    exact hall a (by fin_cases a <;> decide)
  · intro hall
    exact ⟨rfl, fun a _ => hall a⟩

/-- C9 counterexample: at a bootstrap state with no legal action,
`max_reachable_q` does not fail: it returns its `-inf` sentinel (the fold's
initial accumulator, embedded as `none`) as an ordinary value -- the very
float that compares below every Q-value -- so the computation of V(new_state)
produces a value rather than surfacing an error. -/
theorem claim_C9_counterexample :
    initRobot.max_reachable_q (2, 2) (fun _ _ => false) = none ∧
    (∀ q : ℚ, qlt none q = true) :=
  ⟨rfl, fun _ => rfl⟩

/-- C9 amended: if the bootstrap state has no legal action,
`max_reachable_q` silently returns the `-inf` sentinel instead of raising an
error (it returns the sentinel exactly in that degenerate case); the
environment's constructed mask never exercises the case, since every in-bounds
state has at least one legal action. -/
theorem claim_C9_amended_sentinel (r : Robot) (st : GState)
    (mask : GState → Act → Bool) :
    (r.max_reachable_q st mask = none ↔ ∀ a : Act, mask st a = false) ∧
    (∀ s : GState, inBounds s → ∃ a : Act, initAllowedActions s a = true) := by
  refine ⟨max_reachable_q_eq_none_iff r st mask, ?_⟩
  rintro ⟨sr, sc⟩ ⟨h1, h2, h3, h4⟩
  simp only at h1 h2 h3 h4
  interval_cases sr <;> interval_cases sc <;> decide

/-- C9 witness: the all-false mask makes `max_reachable_q` return the
sentinel, and the start cell of the constructed environment has a legal
action. -/
theorem claim_C9_amended_sentinel_witness :
    initRobot.max_reachable_q (2, 2) (fun _ _ => false) = none ∧
    ∃ a : Act, initAllowedActions (0, 0) a = true :=
  ⟨(claim_C9_amended_sentinel initRobot (2, 2) (fun _ _ => false)).1.mpr
      (fun _ => rfl),
   (claim_C9_amended_sentinel initRobot (2, 2) (fun _ _ => false)).2 (0, 0)
      (by decide)⟩

/-- A legal move of the constructed mask never leaves the 5x5 board. -/
theorem initAllowed_next_state_inBounds (s : GState) (a : Act)
    (hb : inBounds s) (hA : initAllowedActions s a = true) :
    inBounds (next_state s a) := by
  obtain ⟨r, c⟩ := s
  obtain ⟨h1, h2, h3, h4⟩ := hb
  have hr1 : 0 ≤ r := h1
  have hr2 : r < 5 := h2
  have hc1 : 0 ≤ c := h3
  have hc2 : c < 5 := h4
  clear h1 h2 h3 h4
  interval_cases r <;> interval_cases c <;> revert a <;> decide

/-- C5: starting from any in-bounds state, the agent stays inside
[0, 5) x [0, 5) after any sequence of realized actions, for any environment
carrying the constructed legality mask: the mask forbids every
boundary-crossing move and illegal moves leave the position unchanged. -/
theorem claim_C5_stays_in_bounds (e : Environment) (acts : List Act)
    (hmask : e.allowed_actions = initAllowedActions)
    (hb : inBounds e.robot_state) :
    inBounds (runEnvironment e acts).robot_state := by
  induction acts generalizing e with
  | nil => simpa [runEnvironment] using hb
  | cons a tl ih =>
      have hrun : runEnvironment e (a :: tl) = runEnvironment (e.receive_action a).1 tl := rfl
      rw [hrun]
      have hmask2 : (e.receive_action a).1.allowed_actions = initAllowedActions := by
        unfold Environment.receive_action
        by_cases hA : e.allowed_actions e.robot_state a <;> simp [hA, hmask]
      have hb2 : inBounds (e.receive_action a).1.robot_state := by
        unfold Environment.receive_action
        by_cases hA : e.allowed_actions e.robot_state a
        · simp only [hA, if_true]
          exact initAllowed_next_state_inBounds _ _ hb (hmask ▸ hA)
        · simp only [hA, Bool.false_eq_true, if_false]
          exact hb
      exact ih _ hmask2 hb2

/-- C5 witness: from the start cell, the realized sequence right, down, down
keeps the agent on the board. -/
theorem claim_C5_stays_in_bounds_witness :
    inBounds (runEnvironment initEnvironment [3, 2, 2]).robot_state :=
  claim_C5_stays_in_bounds initEnvironment [3, 2, 2] rfl (by decide)

/-- Case exhaustion over the 4 actions. -/
theorem forall_act (P : Act → Prop) (h0 : P 0) (h1 : P 1) (h2 : P 2) (h3 : P 3) :
    ∀ a : Act, P a := by
  intro a
  fin_cases a
  exacts [h0, h1, h2, h3]

/-- `np.argmax` over the 4 Q-values: the result attains the maximum, and any
index attaining the maximum is at least the result (first maximum in scan
order 0, 1, 2, 3 wins ties). -/
theorem argmax4_spec (f : Act → ℚ) :
    (∀ a : Act, f a ≤ f (argmax4 f)) ∧
    (∀ a : Act, f a = f (argmax4 f) → argmax4 f ≤ a) := by
  unfold argmax4
  simp only [List.foldl_cons, List.foldl_nil]
  split_ifs <;>
    refine ⟨forall_act _ ?_ ?_ ?_ ?_, forall_act _ ?_ ?_ ?_ ?_⟩ <;>
    first
      | (intro ha; first | decide | (exfalso; linarith))
      | linarith

/-- C6: in the exploit branch, `choose_action` returns `np.argmax` of the 4
Q-values at the current state; that action has the maximal Q-value and ties
are broken in favour of the first maximal action in the canonical scan order
up(0), left(1), down(2), right(3). -/
theorem claim_C6_greedy_argmax (r : Robot) (st : GState) (rand : Act) :
    r.choose_action st true rand = argmax4 (r.Q_table st) ∧
    (∀ a : Act, r.Q_table st a ≤ r.Q_table st (argmax4 (r.Q_table st))) ∧
    (∀ a : Act, r.Q_table st a = r.Q_table st (argmax4 (r.Q_table st)) →
      argmax4 (r.Q_table st) ≤ a) :=
  ⟨rfl, (argmax4_spec _).1, (argmax4_spec _).2⟩

/-- C6 witness: on the fresh all-(-1) Q-table, every action ties, so the
greedy choice is the first action of the scan order and is bounded by every
tying action. -/
theorem claim_C6_greedy_argmax_witness :
    initRobot.choose_action (0, 0) true 2 = argmax4 (initRobot.Q_table (0, 0)) ∧
    argmax4 (initRobot.Q_table (0, 0)) ≤ 2 :=
  ⟨(claim_C6_greedy_argmax initRobot (0, 0) 2).1,
   (claim_C6_greedy_argmax initRobot (0, 0) 2).2.2 2 rfl⟩
